import Mathlib

/-!
Verification of the mongodl download/extract tool.

Shallow embedding of `.evergreen/mongodl.py`: the version-string parser and
its collation order, the `latest-stable` predicate, the manifest import's
missing-target diagnostic, the download retrier, the segment-wise glob
matcher, the archive member extraction filter, the conditional-download
cache logic, and the published-build URL resolution with its
`crypt_shared` fallback.
-/

namespace Mongodl

/-- Sentinel stage rank used by the source for versions with no pre-release
tag: `STABLE_MAX_RC = 9999`. -/
def STABLE_MAX_RC : Nat := 9999

/-- Numeric value of a list of ASCII digits, as Python `int()` computes it. -/
def digitsVal (ds : List Char) : Nat :=
  ds.foldl (fun acc c => acc * 10 + (c.toNat - '0'.toNat)) 0

/-- Greedy `\d+`: take one or more leading digits, returning the value and
the remaining characters; fails when no leading digit exists. -/
def parseDigits (cs : List Char) : Option (Nat × List Char) :=
  let ds := cs.takeWhile (fun c => c.isDigit)
  if ds.isEmpty then none
  else some (digitsVal ds, cs.dropWhile (fun c => c.isDigit))

/-- Regex `MAJOR_VERSION_RE = (\d+)\.(\d+)$` applied with `re.match`: the whole
string must be digits, a dot, and digits. Returns the two numbers. -/
def majorMinorMatch (cs : List Char) : Option (Nat × Nat) := do
  let (mjr, r1) ← parseDigits cs
  match r1 with
  | '.' :: r2 =>
    let (mnr, r3) ← parseDigits r2
    if r3.isEmpty then some (mjr, mnr) else none
  | _ => none

def isLowerAlpha (c : Char) : Bool := 'a' ≤ c && c ≤ 'z'

/-- Regex `VERSION_RE = (\d+)\.(\d+)\.(\d+)(?:-([a-z]+)(\d+))?` applied with
`re.match`: anchored at the start only; the tag group is optional and is
skipped whenever it cannot complete (no `-`, no letters, or no digits after
the letters). Trailing characters after the match are ignored. -/
def versionReMatch (cs : List Char) : Option (Nat × Nat × Nat × Option (String × Nat)) := do
  let (mjr, r1) ← parseDigits cs
  match r1 with
  | '.' :: r2 =>
    let (mnr, r3) ← parseDigits r2
    match r3 with
    | '.' :: r4 =>
      let (pat, r5) ← parseDigits r4
      match r5 with
      | '-' :: r6 =>
        let letters := r6.takeWhile isLowerAlpha
        let r7 := r6.dropWhile isLowerAlpha
        if letters.isEmpty then
          some (mjr, mnr, pat, none)
        else
          match parseDigits r7 with
          | some (n, _) => some (mjr, mnr, pat, some (letters.asString, n))
          | none => some (mjr, mnr, pat, none)
      | _ => some (mjr, mnr, pat, none)
    | _ => none
  | _ => none

/-- The stage-tag rank table `{"alpha": 1, "beta": 2, "rc": 3}`; any other
tag raises `KeyError` in the source, modelled as `none`. -/
def tagRank (tag : String) : Option Nat :=
  if tag = "alpha" then some 1
  else if tag = "beta" then some 2
  else if tag = "rc" then some 3
  else none

/-- Function `version_tup`: parse a version string to its 5-tuple
(major, minor, patch, stage rank, stage number). The bare `MAJOR.MINOR`
branch returns `(maj, mnr, 0, 0, 0)`; a full version with no tag gets the
`STABLE_MAX_RC` sentinel in the stage-rank slot. A failed parse (assertion
failure or `KeyError` in the source) is `none`. -/
def version_tup (version : String) : Option (Nat × Nat × Nat × Nat × Nat) :=
  match majorMinorMatch version.toList with
  | some (mjr, mnr) => some (mjr, mnr, 0, 0, 0)
  | none =>
    match versionReMatch version.toList with
    | none => none
    | some (mjr, mnr, pat, tagPart) =>
      match tagPart with
      | none => some (mjr, mnr, pat, STABLE_MAX_RC, 0)
      | some (tag, tagnum) =>
        match tagRank tag with
        | none => none
        | some r => some (mjr, mnr, pat, r, tagnum)

/-- Python's lexicographic `<` on 5-tuples of integers. -/
def tupleLt (a b : Nat × Nat × Nat × Nat × Nat) : Bool :=
  if a.1 ≠ b.1 then decide (a.1 < b.1)
  else if a.2.1 ≠ b.2.1 then decide (a.2.1 < b.2.1)
  else if a.2.2.1 ≠ b.2.2.1 then decide (a.2.2.1 < b.2.2.1)
  else if a.2.2.2.1 ≠ b.2.2.2.1 then decide (a.2.2.2.1 < b.2.2.2.1)
  else decide (a.2.2.2.2 < b.2.2.2.2)

/-- Function `collate_mdb_version`: compare two version strings by their parsed
tuples; -1, 0 or 1. A parse failure of either side is `none`. -/
def collate_mdb_version (left right : String) : Option Int := do
  let lhs ← version_tup left
  let rhs ← version_tup right
  pure (if tupleLt lhs rhs then (-1 : Int) else if tupleLt rhs lhs then 1 else 0)

/-- Function `mdb_version_not_rc` exactly as written in the source: it compares
`tup[-1]` — the LAST tuple element, the stage sequence number — against
`STABLE_MAX_RC`. -/
def mdb_version_not_rc (version : String) : Option Bool :=
  (version_tup version).map (fun t => t.2.2.2.2 == STABLE_MAX_RC)

/-- Function `mdb_version_rapid`: minor component nonzero. -/
def mdb_version_rapid (version : String) : Option Bool :=
  (version_tup version).map (fun t => decide (0 < t.2.1))

/-- Spec-side predicate for comparison with `mdb_version_not_rc`: a version
carries no pre-release stage tag exactly when its stage-RANK slot (the
fourth element, `tup[-2]`) holds the `STABLE_MAX_RC` sentinel. -/
def versionHasNoPrereleaseTag (version : String) : Option Bool :=
  (version_tup version).map (fun t => t.2.2.2.1 == STABLE_MAX_RC)

/-- State of `DownloadRetrier`: the configured retry budget and the number of
attempts made so far (`__init__` sets `attempt = 0`, asserts `retries ≥ 0`). -/
structure DownloadRetrier where
  retries : Nat
  attempt : Nat
deriving Repr, DecidableEq

/-- The freshly constructed retrier `DownloadRetrier(retries)`. -/
def DownloadRetrier.make (retries : Nat) : DownloadRetrier :=
  { retries := retries, attempt := 0 }

/-- One call of `DownloadRetrier.retry`: returns the decision, the sleep
performed (in seconds, `none` when no sleep happens) and the new state.
When `attempt >= retries` the call returns `False` immediately; otherwise
`attempt` is incremented and the call sleeps
`min(2 ** (attempt - 1), 600)` before returning `True`. -/
def DownloadRetrier.retry (r : DownloadRetrier) : Bool × Option Nat × DownloadRetrier :=
  if r.retries ≤ r.attempt then (false, none, r)
  else
    let attempt := r.attempt + 1
    (true, some (min (2 ^ (attempt - 1)) 600), { r with attempt := attempt })

/-- The observable trace of `n` successive `retry()` calls: for each call,
its boolean decision and the sleep it performed. -/
def retrySequence : DownloadRetrier → Nat → List (Bool × Option Nat)
  | _, 0 => []
  | r, n + 1 =>
    match r.retry with
    | (ok, slept, r2) => (ok, slept) :: retrySequence r2 n

/-- The fixed non-distro target names `TARGETS_THAT_ARE_NOT_DISTROS`. -/
def TARGETS_THAT_ARE_NOT_DISTROS : List String :=
  ["linux_i686", "linux_x86_64", "osx", "macos", "windows"]

/-- All values appearing in the `DISTRO_ID_TO_TARGET` tables, listed per
distro exactly as the source's nested dicts enumerate them (`rhel` maps two
patterns to each target, hence the duplicates). -/
def DISTRO_ID_TO_TARGET_VALUES : List String :=
  ["ubuntu2404", "ubuntu2204", "ubuntu2004", "ubuntu1804", "ubuntu1604", "ubuntu1404",
   "debian92", "debian10", "debian11", "debian12",
   "rhel6", "rhel6", "rhel7", "rhel7", "rhel8", "rhel8", "rhel9", "rhel9",
   "suse10", "suse11", "suse12", "suse13", "suse15",
   "amazon2023", "amzn64", "amazon2"]

/-- The RHEL normalization in `_import_json_data`: a target that starts with
`rhel` and has exactly six characters loses its trailing character
(`target[:-1]`). -/
def normalizeTarget (target : String) : String :=
  if target.toList.take 4 == ['r', 'h', 'e', 'l'] && target.toList.length == 6 then
    (target.toList.take 5).asString
  else target

/-- The `found` check of `_import_json_data`: the (normalized) target occurs
among the values of some `DISTRO_ID_TO_TARGET` table. -/
def targetIsKnown (target : String) : Bool :=
  DISTRO_ID_TO_TARGET_VALUES.contains target

/-- The `missing` set accumulated over one version entry's download list.
Each download contributes `dl.get("target", "null")`, normalized; it is
added when it is neither a known distro target nor one of the fixed
non-distro names. The set is modelled as a duplicate-free list. -/
def missingOfVersion (downloads : List (Option String)) : List String :=
  downloads.foldl
    (fun acc dlTarget =>
      let target := normalizeTarget (dlTarget.getD "null")
      if !targetIsKnown target && !TARGETS_THAT_ARE_NOT_DISTROS.contains target
          && !acc.contains target
      then acc ++ [target] else acc) []

/-- The value of the local variable `missing` after the whole
`for ver in data["versions"]` loop of `_import_json_data` — the value the
final `if missing:` report sees. The source re-runs `missing = set()` at
the TOP of each iteration of the version loop, so each version entry
overwrites the previous set; when the version list is empty the variable
was never bound (`NameError`), modelled as `none`. Each version entry is
represented by the list of its downloads' optional target strings. -/
def reportedMissingTargets (versions : List (List (Option String))) : Option (List String) :=
  versions.foldl (fun _ ver => some (missingOfVersion ver)) none

/-- Modelled from the spec: the behaviour C3 describes — one single missing
set collected across ALL version entries of the manifest. Used only to
compare with `reportedMissingTargets`. -/
def specAllMissingTargets (versions : List (List (Option String))) : List String :=
  versions.foldl
    (fun acc ver =>
      (missingOfVersion ver).foldl
        (fun acc t => if acc.contains t then acc else acc ++ [t]) acc) []

/-- Number of characters `fnmatch.translate` skips at the start of a
bracket expression body before looking for the closing `]`: a leading `!`
and then a leading `]` belong to the body. -/
def classSkip : List Char → Nat
  | '!' :: ']' :: _ => 2
  | '!' :: _ => 1
  | ']' :: _ => 1
  | _ => 0

/-- Split the characters following a `[` into the bracket-expression body
and the remainder after the closing `]`, following `fnmatch.translate`'s
scan; `none` when no closing `]` exists (the `[` is then a literal). -/
def splitClass (cs : List Char) : Option (List Char × List Char) :=
  let k := classSkip cs
  match (cs.drop k).findIdx? (fun c => c == ']') with
  | none => none
  | some j => some (cs.take (k + j), cs.drop (k + j + 1))

/-- Membership of a character in a bracket-expression body, with `a-z`
ranges; a trailing or leading `-` is a literal member. -/
def inClass : List Char → Char → Bool
  | [], _ => false
  | a :: '-' :: b :: rest, c => (a ≤ c && c ≤ b) || inClass rest c
  | a :: rest, c => a == c || inClass rest c

/-- A bracket expression matches a character; a leading `!` negates. -/
def matchBracket (body : List Char) (c : Char) : Bool :=
  match body with
  | '!' :: rest => !inClass rest c
  | _ => inClass body c

/-- Does the predicate hold of some suffix of the list (the list itself
included, the empty suffix included)? Used for the `*` wildcard, which
matches any (possibly empty) run of characters. -/
def anySuffix (f : List Char → Bool) : List Char → Bool
  | [] => f []
  | c :: cs => f (c :: cs) || anySuffix f cs

/-- Single-segment glob matching as `fnmatch.fnmatchcase(name, pat)` (the
source runs on POSIX, where `fnmatch` does no case folding): `*` matches
any run, `?` any one character, `[...]`/`[!...]` a bracket expression, and
every other character itself; the whole name must be consumed. The `fuel`
argument is an upper bound on the pattern length, consumed once per
pattern token so the recursion is structural; the top-level wrapper
supplies `pat.length`, which the `0` arm can never see with a non-empty
pattern. -/
def fnmatchAux : Nat → List Char → List Char → Bool
  | _, [], name => name.isEmpty
  | 0, _ :: _, _ => false
  | fuel + 1, '*' :: pt, name => anySuffix (fnmatchAux fuel pt) name
  | fuel + 1, '?' :: pt, name =>
    match name with
    | [] => false
    | _ :: nt => fnmatchAux fuel pt nt
  | fuel + 1, '[' :: pt, name =>
    match name with
    | [] => false
    | n :: nt =>
      match splitClass pt with
      | none => '[' == n && fnmatchAux fuel pt nt
      | some (body, rest) => matchBracket body n && fnmatchAux fuel rest nt
  | fuel + 1, pc :: pt, name =>
    match name with
    | [] => false
    | n :: nt => pc == n && fnmatchAux fuel pt nt

/-- Function `fnmatch(name, pat)` on one path segment. -/
def fnmatch (name pat : String) : Bool :=
  fnmatchAux pat.toList.length pat.toList name.toList

/-- The recursive core of `_test_pattern`, by recursion on the pattern
segments (the source recurses with the same structure; the argument order
is swapped here so the recursion is structural on the pattern):
an empty pattern always matches; a non-empty pattern requires a non-empty
path; a leading `**` tries every suffix `path_parts[i:]` for
`i in range(len(path_parts))` against the remaining pattern; otherwise the
first path segment must `fnmatch` the first pattern segment and the rest
is matched recursively. -/
def testPatternGo : List String → List String → Bool
  | [] => fun _ => true
  | ph :: pt => fun path =>
    match path with
    | [] => false
    | p :: ps =>
      if ph == "**" then
        (List.range (p :: ps).length).any (fun i => testPatternGo pt ((p :: ps).drop i))
      else
        fnmatch p ph && testPatternGo pt ps

/-- Function `_test_pattern(path, pattern)` over segment lists; `pattern is None`
always matches. -/
def _test_pattern (path : List String) (pattern : Option (List String)) : Bool :=
  match pattern with
  | none => true
  | some pat => testPatternGo pat path

/-- Split a relative path string into its `PurePath.parts`: `/`-separated
segments, with empty segments and `.` segments dropped (as `pathlib`
normalizes them). -/
def splitOnCharAux (sep : Char) : List Char → List Char → List String
  | [], acc => [acc.reverse.asString]
  | c :: cs, acc =>
    if c == sep then acc.reverse.asString :: splitOnCharAux sep cs []
    else splitOnCharAux sep cs (c :: acc)

def pathParts (s : String) : List String :=
  (splitOnCharAux '/' s.toList []).filter (fun p => p != "" && p != ".")

/-- String-level `_test_pattern`, splitting both arguments into segments. -/
def testPatternStr (path : String) (pattern : Option String) : Bool :=
  match pattern with
  | none => true
  | some pat => _test_pattern (pathParts path) (some (pathParts pat))

/-- The caller of `_test_pattern` passes `PurePath(pattern) if pattern else
None`: an empty pattern string is falsy in Python and behaves as `None`. -/
def patternOf : Option String → Option (List String)
  | none => none
  | some p => if p == "" then none else some (pathParts p)

/-- Function `_maybe_extract_member` restricted to its filtering and destination
logic: `none` when the member is excluded (count 0), otherwise the stripped
segment list that is joined onto the output directory to form the
destination (count 1). A member is excluded when
`len(relpath.parts) <= strip`, or when the ORIGINAL unstripped path fails
the pattern test; otherwise the destination is `out / relpath.parts[strip:]`
(in `test` mode nothing is written but the member counts all the same). -/
def _maybe_extract_member (relpath : String) (pattern : Option String) (strip : Nat) :
    Option (List String) :=
  let parts := pathParts relpath
  if parts.length ≤ strip then none
  else if !_test_pattern parts (patternOf pattern) then none
  else some (parts.drop strip)

/-- The state `Cache.download_file` consults for one URL: the validator
pair stored in `mdl_http_downloads` (a missing row and a stored NULL both
read back as `None`), and whether the derived local cache file `dest`
exists on disk. -/
structure DlState where
  etagStored : Option String
  lastModifiedStored : Option String
  destExists : Bool
deriving Repr, DecidableEq

/-- The conditional headers of the request `download_file` issues. -/
structure Request where
  ifNoneMatch : Option String
  ifModifiedSince : Option String
deriving Repr, DecidableEq

/-- What the server answers: a full response with its validators, declared
`Content-Length` and the byte count actually streamed to disk, or an HTTP
error status (304 is "not modified"). -/
inductive Response where
  | success (etag lastModified : Option String) (contentLength bytesWritten : Nat)
  | httpError (code : Nat)
deriving Repr, DecidableEq

/-- The headers `download_file` sends: `If-None-Match` from a truthy stored
etag and `If-Modified-Since` from a truthy stored mod time (Python's
`if etag:` drops an empty string), but `headers = {}` whenever the derived
destination file does not exist. -/
def requestHeaders (st : DlState) : Request :=
  let headers : Request :=
    { ifNoneMatch := st.etagStored.filter (fun e => e != ""),
      ifModifiedSince := st.lastModifiedStored.filter (fun m => m != "") }
  if st.destExists then headers else { ifNoneMatch := none, ifModifiedSince := none }

/-- Method `Cache.download_file(url)` for one URL against a server modelled as a
function from the issued request to its response. Result: `ok (changed,
state)` mirroring `DownloadResult(is_changed, dest)` with the updated
validator/file state, or `error` for the `RuntimeError`s and the failed
`assert`. On a 304 the cached file must already exist; on a full response
the body is streamed to `dest`, the size is checked against
`Content-Length`, and the new validators replace the stored row. -/
def download_file (st : DlState) (server : Request → Response) :
    Except String (Bool × DlState) :=
  match server (requestHeaders st) with
  | .httpError code =>
    if code ≠ 304 then .error "Failed to download"
    else if st.destExists then .ok (false, st)
    else .error "The download cache is missing an expected file"
  | .success etag lastModified contentLength bytesWritten =>
    if bytesWritten ≠ contentLength then
      .error "File size does not match download size"
    else
      .ok (true, { etagStored := etag, lastModifiedStored := lastModified, destExists := true })

/-- One catalog entry as `iter_available` returns it for a fully filtered
query: the component's JSON blob, with the fields `_published_build_url`
reads. `none` in `debug_symbols`/`sha256` stands for an absent JSON key
(reading it raises `KeyError`). -/
structure ComponentData where
  url : String
  debug_symbols : Option String
  sha256 : Option String
deriving Repr, DecidableEq

/-- Errors of the published-build resolution: the `ValueError` raised when
no catalog row matches, and a `KeyError` from reading an absent JSON
field. -/
inductive ResolveError where
  | valueErrorNoDownload (version target arch edition component : String)
  | keyError (key : String)
deriving Repr, DecidableEq

def ResolveError.isValueError : ResolveError → Bool
  | .valueErrorNoDownload _ _ _ _ _ => true
  | .keyError _ => false

/-- The catalog lookup underlying `_published_build_url`: the first row of
`iter_available(version, target, arch, edition, component)`, or `none`. -/
def Catalog := String → String → String → String → String → Option ComponentData

/-- Function `_published_build_url`: a component key `archive-debug` is translated
to look up the `archive` component and read its `debug_symbols` field
instead of `url`; a lookup miss raises `ValueError`; a missing JSON field
raises `KeyError`. Returns `(url, sha256)`. -/
def _published_build_url (catalog : Catalog)
    (version target arch edition component : String) :
    Except ResolveError (String × String) :=
  let valueIsDebug := component == "archive-debug"
  let component := if valueIsDebug then "archive" else component
  match catalog version target arch edition component with
  | none => .error (.valueErrorNoDownload version target arch edition component)
  | some data =>
    match (if valueIsDebug then data.debug_symbols else some data.url) with
    | none => .error (.keyError "debug_symbols")
    | some url =>
      match data.sha256 with
      | none => .error (.keyError "sha256")
      | some sha => .ok (url, sha)

/-- The published-version branch of `_dl_component` (taken when `version`
is not `latest-build`/`latest`): resolve via `_published_build_url`; on a
`ValueError` for component `crypt_shared` at a version other than
`latest-release`, warn and retry ONCE at `latest-release` with target
`osx` rewritten to `macos`; any other failure, and any failure of the
retry, propagates. Returns `(url, sha256, warned)`. -/
def resolve_published (catalog : Catalog)
    (version target arch edition component : String) :
    Except ResolveError (String × String × Bool) :=
  match _published_build_url catalog version target arch edition component with
  | .ok (url, sha) => .ok (url, sha, false)
  | .error e =>
    if e.isValueError && component == "crypt_shared" && version != "latest-release" then
      match _published_build_url catalog "latest-release"
          (if target == "osx" then "macos" else target) arch edition component with
      | .ok (url, sha) => .ok (url, sha, true)
      | .error e2 => .error e2
    else .error e

/-- A small concrete catalog: `crypt_shared` is published only at
`latest-release` for `macos`. -/
def sampleCatalog : Catalog := fun version target arch edition component =>
  if version == "latest-release" && target == "macos" && arch == "x86_64"
      && edition == "enterprise" && component == "crypt_shared" then
    some { url := "https://example.test/crypt.tgz", debug_symbols := none,
           sha256 := some "cafebabe" }
  else none

end Mongodl

namespace Mongodl

/-- Characterization of `tupleLt` as the lexicographic strict order. -/
theorem tupleLt_iff (a b : Nat × Nat × Nat × Nat × Nat) :
    tupleLt a b = true ↔
      a.1 < b.1 ∨ a.1 = b.1 ∧ (a.2.1 < b.2.1 ∨ a.2.1 = b.2.1 ∧ (a.2.2.1 < b.2.2.1 ∨
        a.2.2.1 = b.2.2.1 ∧ (a.2.2.2.1 < b.2.2.2.1 ∨ a.2.2.2.1 = b.2.2.2.1 ∧
          a.2.2.2.2 < b.2.2.2.2))) := by
  obtain ⟨a1, a2, a3, a4, a5⟩ := a
  obtain ⟨b1, b2, b3, b4, b5⟩ := b
  simp only [tupleLt]
  split_ifs <;> simp_all

/-- C7: comparison of parsed 5-tuples by plain lexicographic order is a
strict total order (irreflexive, transitive, total, asymmetric); the chain
`"5.0.3-rc2" < "5.0.3" < "5.0.4-alpha0"` holds under the parse-then-compare
order, and the absent stage tag is ranked by the sentinel above the real
ranks alpha(1), beta(2), rc(3). -/
theorem c7_version_order_strict_total :
    (∀ t : Nat × Nat × Nat × Nat × Nat, tupleLt t t = false) ∧
    (∀ a b c : Nat × Nat × Nat × Nat × Nat,
        tupleLt a b = true → tupleLt b c = true → tupleLt a c = true) ∧
    (∀ a b : Nat × Nat × Nat × Nat × Nat,
        tupleLt a b = true ∨ a = b ∨ tupleLt b a = true) ∧
    (∀ a b : Nat × Nat × Nat × Nat × Nat, tupleLt a b = true → tupleLt b a = false) ∧
    collate_mdb_version "5.0.3-rc2" "5.0.3" = some (-1) ∧
    collate_mdb_version "5.0.3" "5.0.4-alpha0" = some (-1) ∧
    version_tup "5.0.3-rc2" = some (5, 0, 3, 3, 2) ∧
    version_tup "5.0.3" = some (5, 0, 3, STABLE_MAX_RC, 0) ∧
    version_tup "5.0.4-alpha0" = some (5, 0, 4, 1, 0) ∧
    tagRank "alpha" = some 1 ∧ tagRank "beta" = some 2 ∧ tagRank "rc" = some 3 ∧
    (∀ tag : String, ∀ r : Nat, tagRank tag = some r → r < STABLE_MAX_RC) := by
  refine ⟨?_, ?_, ?_, ?_, by decide, by decide, by decide, by decide, by decide,
    by decide, by decide, by decide, ?_⟩
  · intro t
    rcases Bool.eq_false_or_eq_true (tupleLt t t) with h | h
    · exfalso; rw [tupleLt_iff] at h; omega
    · exact h
  · intro a b c hab hbc
    rw [tupleLt_iff] at hab hbc ⊢
    omega
  · intro a b
    obtain ⟨a1, a2, a3, a4, a5⟩ := a
    obtain ⟨b1, b2, b3, b4, b5⟩ := b
    simp only [tupleLt_iff, Prod.mk.injEq]
    omega
  · intro a b hab
    rcases Bool.eq_false_or_eq_true (tupleLt b a) with h | h
    · exfalso; rw [tupleLt_iff] at hab h; omega
    · exact h
  · intro tag r h
    simp only [tagRank, STABLE_MAX_RC] at h ⊢
    split_ifs at h <;> simp_all <;> omega

/-- Witness for C7: transitivity applied at concrete tuples, giving
`(5,0,3,3,2) < (5,0,4,1,0)` through `(5,0,3,9999,0)`. -/
theorem c7_version_order_strict_total_witness :
    tupleLt (5, 0, 3, 3, 2) (5, 0, 4, 1, 0) = true :=
  c7_version_order_strict_total.2.1 (5, 0, 3, 3, 2) (5, 0, 3, 9999, 0) (5, 0, 4, 1, 0)
    (by decide) (by decide)

/-- C1 counterexample: the bare two-part string `"4.4"` parses to
`(4, 4, 0, 0, 0)` — stage rank 0, NOT the stable sentinel — and therefore
`"4.4"` compares strictly below `"4.4.0"`, not equal to it. -/
theorem c1_bare_version_counterexample :
    version_tup "4.4" = some (4, 4, 0, 0, 0) ∧
    version_tup "4.4" ≠ some (4, 4, 0, STABLE_MAX_RC, 0) ∧
    collate_mdb_version "4.4" "4.4.0" = some (-1) ∧
    collate_mdb_version "4.4" "4.4.0" ≠ some 0 := by
  refine ⟨by decide, by decide, by decide, by decide⟩

/-- C1 (amended): every bare `MAJOR.MINOR` string parses to
`(major, minor, 0, 0, 0)` — the stage-rank slot gets 0, which ranks below
every real pre-release rank — and consequently `"4.4"` compares strictly
less than `"4.4.0"` under the parse-then-compare order. -/
theorem c1_bare_version_amended :
    (∀ v : String, ∀ mjr mnr : Nat, majorMinorMatch v.toList = some (mjr, mnr) →
        version_tup v = some (mjr, mnr, 0, 0, 0)) ∧
    collate_mdb_version "4.4" "4.4.0" = some (-1) ∧
    collate_mdb_version "4.4.0" "4.4" = some 1 := by
  refine ⟨?_, by decide, by decide⟩
  intro v mjr mnr h
  unfold version_tup
  rw [h]

/-- Witness for the amended C1 at the concrete input `"4.4"`. -/
theorem c1_bare_version_amended_witness :
    version_tup "4.4" = some (4, 4, 0, 0, 0) :=
  c1_bare_version_amended.1 "4.4" 4 4 (by decide)

/-- C2 evaluated on the code: `"6.0.6"` carries no pre-release stage tag,
yet `mdb_version_not_rc` (the predicate backing `latest-stable`) rejects
it, because the source compares `tup[-1]` — the stage sequence number —
with `STABLE_MAX_RC` instead of the stage rank `tup[-2]`; conversely the
rc-tagged `"5.0.3-rc9999"` is accepted. -/
theorem c2_latest_stable_predicate_bug :
    versionHasNoPrereleaseTag "6.0.6" = some true ∧
    mdb_version_not_rc "6.0.6" = some false ∧
    versionHasNoPrereleaseTag "5.0.3-rc9999" = some false ∧
    mdb_version_not_rc "5.0.3-rc9999" = some true := by
  refine ⟨by decide, by decide, by decide, by decide⟩

/-- C3 evaluated on the code: in a manifest whose first version entry has
the unknown target `"phony"` and whose last entry has only the known
target `"rhel80"` (normalized to `"rhel8"`), the `missing` set the final
report sees is empty — the set is re-initialized for every version entry,
so `"phony"` is silently dropped even though it is neither a known target
nor a non-distro sentinel; with no version entries at all the report even
reads an unbound variable. -/
theorem c3_missing_targets_reset_per_version :
    targetIsKnown "phony" = false ∧
    TARGETS_THAT_ARE_NOT_DISTROS.contains "phony" = false ∧
    missingOfVersion [some "phony"] = ["phony"] ∧
    specAllMissingTargets [[some "phony"], [some "rhel80"]] = ["phony"] ∧
    reportedMissingTargets [[some "phony"], [some "rhel80"]] = some [] ∧
    reportedMissingTargets [] = none := by decide

end Mongodl

namespace Mongodl

/-- A `retry()` call with budget left: attempt `k` of `N`, `k < N`. -/
theorem retry_step (N k : Nat) (h : k < N) :
    DownloadRetrier.retry { retries := N, attempt := k } =
      (true, some (min (2 ^ k) 600), { retries := N, attempt := k + 1 }) := by
  unfold DownloadRetrier.retry
  rw [if_neg (by simp; omega)]
  simp

/-- A `retry()` call with the budget spent returns `False` and sleeps not. -/
theorem retry_exhausted (N j : Nat) (h : N ≤ j) :
    DownloadRetrier.retry { retries := N, attempt := j } =
      (false, none, { retries := N, attempt := j }) := by
  unfold DownloadRetrier.retry
  rw [if_pos h]

/-- One step of the trace. -/
theorem retrySequence_succ (r : DownloadRetrier) (n : Nat) :
    retrySequence r (n + 1) = (r.retry.1, r.retry.2.1) :: retrySequence r.retry.2.2 n := by
  rw [retrySequence]

/-- Trace of `m + 1` calls starting at attempt `j` with budget `j + m`:
`m` successes with doubling sleeps, then one exhausted call. -/
theorem retrySequence_from (m : Nat) : ∀ j : Nat,
    retrySequence { retries := j + m, attempt := j } (m + 1) =
      ((List.range m).map fun i => (true, some (min (2 ^ (j + i)) 600))) ++ [(false, none)] := by
  induction m with
  | zero =>
    intro j
    rw [retrySequence_succ, show j + 0 = j from rfl, retry_exhausted j j le_rfl]
    rfl
  | succ m ih =>
    intro j
    have ih2 := ih (j + 1)
    have harg : j + 1 + m = j + (m + 1) := by omega
    rw [harg] at ih2
    rw [retrySequence_succ, retry_step (j + (m + 1)) j (by omega)]
    dsimp only
    rw [ih2, List.range_succ_eq_map, List.map_cons, List.map_map, List.cons_append]
    refine congrArg₂ _ (by simp) ?_
    refine congrArg₂ _ ?_ rfl
    refine List.map_congr_left ?_
    intro i hi
    show (true, some (2 ^ (j + 1 + i) ⊓ 600)) = (true, some (2 ^ (j + (i + 1)) ⊓ 600))
    rw [show j + 1 + i = j + (i + 1) from by omega]

/-- C4: with retry budget `N`, the trace of `N + 1` calls is `N` calls
returning `true`, the `k`-th sleeping exactly `min(2^(k-1), 600)` time
units, followed by one call returning `false` with no sleep; a call with
attempts left returns `true`, sleeps `min(2^attempt, 600)` and increments
the attempt counter, and a call at the budget returns `false` without
sleeping or changing state; with `retries = 3` the observed delays are
exactly `[1, 2, 4]` before the fourth call signals exhaustion. -/
theorem c4_retrier_backoff :
    (∀ N : Nat, retrySequence (DownloadRetrier.make N) (N + 1) =
        ((List.range N).map fun k => (true, some (min (2 ^ k) 600))) ++ [(false, none)]) ∧
    (∀ N k : Nat, k < N → DownloadRetrier.retry { retries := N, attempt := k } =
        (true, some (min (2 ^ k) 600), { retries := N, attempt := k + 1 })) ∧
    (∀ N : Nat, DownloadRetrier.retry { retries := N, attempt := N } =
        (false, none, { retries := N, attempt := N })) ∧
    retrySequence (DownloadRetrier.make 3) 4 =
      [(true, some 1), (true, some 2), (true, some 4), (false, none)] := by
  refine ⟨?_, retry_step, fun N => retry_exhausted N N le_rfl, by decide⟩
  intro N
  have h := retrySequence_from N 0
  simpa [DownloadRetrier.make] using h

/-- Witness for C4: the very first call of a budget-3 retrier succeeds and
sleeps one unit. -/
theorem c4_retrier_backoff_witness :
    DownloadRetrier.retry { retries := 3, attempt := 0 } =
      (true, some 1, { retries := 3, attempt := 1 }) := by
  simpa using c4_retrier_backoff.2.1 3 0 (by decide)

end Mongodl

namespace Mongodl

/-- C5: the segment-wise glob matcher: an empty pattern (or `None`) matches
every path; a non-empty pattern never matches an empty path; a leading
`**` segment matches exactly when some suffix of the remaining path
(dropping zero or more leading segments) matches the rest of the pattern;
otherwise the first pattern segment must `fnmatch` the first path segment
and the rest is matched recursively. Concretely `bin/**` matches
`bin/sub/mongod` and `bin/mongod` but not `lib/bin/mongod`, and `*.exe`
matches `mongod.exe` but not `bin/mongod.exe`. -/
theorem c5_test_pattern_glob :
    (∀ path : List String, _test_pattern path (some []) = true) ∧
    (∀ path : List String, _test_pattern path none = true) ∧
    (∀ ph : String, ∀ pt : List String, _test_pattern [] (some (ph :: pt)) = false) ∧
    (∀ p : String, ∀ ps pt : List String,
        (_test_pattern (p :: ps) (some ("**" :: pt)) = true ↔
          ∃ i ≤ (p :: ps).length, _test_pattern ((p :: ps).drop i) (some pt) = true)) ∧
    (∀ p ph : String, ∀ ps pt : List String, ph ≠ "**" →
        _test_pattern (p :: ps) (some (ph :: pt)) =
          (fnmatch p ph && _test_pattern ps (some pt))) ∧
    testPatternStr "bin/sub/mongod" (some "bin/**") = true ∧
    testPatternStr "bin/mongod" (some "bin/**") = true ∧
    testPatternStr "lib/bin/mongod" (some "bin/**") = false ∧
    testPatternStr "mongod.exe" (some "*.exe") = true ∧
    testPatternStr "bin/mongod.exe" (some "*.exe") = false := by
  refine ⟨?_, ?_, ?_, ?_, ?_, by decide, by decide, by decide, by decide, by decide⟩
  · intro path; rfl
  · intro path; rfl
  · intro ph pt; rfl
  · intro p ps pt
    show ((List.range (p :: ps).length).any fun i => testPatternGo pt ((p :: ps).drop i)) = true ↔ _
    rw [List.any_eq_true]
    constructor
    · rintro ⟨i, hi, h⟩
      rw [List.mem_range] at hi
      exact ⟨i, Nat.le_of_lt hi, h⟩
    · rintro ⟨i, hle, h⟩
      rcases Nat.lt_or_ge i (p :: ps).length with hlt | hge
      · exact ⟨i, List.mem_range.mpr hlt, h⟩
      · have hdrop : (p :: ps).drop i = [] := List.drop_eq_nil_of_le hge
        rw [hdrop] at h
        cases pt with
        | nil =>
          exact ⟨0, List.mem_range.mpr (Nat.succ_pos _), rfl⟩
        | cons q qt =>
          exact absurd h (by simp [_test_pattern, testPatternGo])
  · intro p ph ps pt hne
    show testPatternGo (ph :: pt) (p :: ps) = _
    unfold testPatternGo
    dsimp only
    rw [if_neg (by simp [hne])]
    rfl

/-- Witness for C5: the recursive non-`**` case applied at a concrete
mismatching head segment. -/
theorem c5_test_pattern_glob_witness :
    _test_pattern ["lib", "bin", "mongod"] (some ["bin"]) =
      (fnmatch "lib" "bin" && _test_pattern ["bin", "mongod"] (some [])) :=
  c5_test_pattern_glob.2.2.2.2.1 "lib" "bin" ["bin", "mongod"] [] (by decide)

/-- C6: `_maybe_extract_member` excludes a member whose path has at most
`strip` segments; with strictly more segments the glob pattern is tested
against the ORIGINAL unstripped path, and an included member goes to the
destination joined with the path minus its first `strip` segments.
`bin/mongod.exe` with one stripped component lands at `mongod.exe`; with
two it is excluded. -/
theorem c6_maybe_extract_member :
    (∀ relpath : String, ∀ pattern : Option String, ∀ strip : Nat,
        (pathParts relpath).length ≤ strip →
        _maybe_extract_member relpath pattern strip = none) ∧
    (∀ relpath : String, ∀ pattern : Option String, ∀ strip : Nat,
        strip < (pathParts relpath).length →
        _maybe_extract_member relpath pattern strip =
          (if _test_pattern (pathParts relpath) (patternOf pattern) then
            some ((pathParts relpath).drop strip) else none)) ∧
    _maybe_extract_member "bin/mongod.exe" none 1 = some ["mongod.exe"] ∧
    _maybe_extract_member "bin/mongod.exe" none 2 = none ∧
    _maybe_extract_member "bin/mongod.exe" (some "bin/**") 1 = some ["mongod.exe"] ∧
    _maybe_extract_member "bin/mongod.exe" (some "*.exe") 0 = none := by
  refine ⟨?_, ?_, by decide, by decide, by decide, by decide⟩
  · intro relpath pattern strip h
    unfold _maybe_extract_member
    rw [if_pos h]
  · intro relpath pattern strip h
    unfold _maybe_extract_member
    rw [if_neg (by omega)]
    cases htest : _test_pattern (pathParts relpath) (patternOf pattern) <;> simp [htest]

/-- Witness for C6: a path with two segments is excluded whenever three or
more components are stripped. -/
theorem c6_maybe_extract_member_witness :
    _maybe_extract_member "bin/mongod.exe" none 3 = none :=
  c6_maybe_extract_member.1 "bin/mongod.exe" none 3 (by decide)

end Mongodl

namespace Mongodl

/-- C8: when the server answers "not modified" (HTTP 304) to the request
`download_file` issued, the call returns `changed = false` with the cached
state untouched exactly when the cached local file exists; when the file
is absent the call fails with the cache-inconsistency error, and in the
304 branch no successful result ever reports `changed = true` (no silent
fresh download). -/
theorem c8_not_modified_requires_cached_file (st : DlState) (server : Request → Response)
    (h : server (requestHeaders st) = .httpError 304) :
    (st.destExists = true → download_file st server = .ok (false, st)) ∧
    (st.destExists = false →
      download_file st server = .error "The download cache is missing an expected file") ∧
    (∀ changed : Bool, ∀ st2 : DlState,
        download_file st server = .ok (changed, st2) → changed = false ∧ st2 = st) := by
  unfold download_file
  rw [h]
  refine ⟨fun hd => ?_, fun hd => ?_, ?_⟩
  · simp [hd]
  · simp [hd]
  · intro changed st2 hok
    cases hd : st.destExists <;> simp [hd] at hok
    exact ⟨hok.1, hok.2.symm⟩

/-- Witness for C8 at a concrete state and a server that always answers
304: the fetch reuses the cached file and reports it unchanged. -/
theorem c8_not_modified_requires_cached_file_witness :
    download_file
        { etagStored := some "tag", lastModifiedStored := none, destExists := true }
        (fun _ => .httpError 304) =
      .ok (false, { etagStored := some "tag", lastModifiedStored := none,
                    destExists := true }) :=
  (c8_not_modified_requires_cached_file
    { etagStored := some "tag", lastModifiedStored := none, destExists := true }
    (fun _ => .httpError 304) rfl).1 rfl

/-- C10: when the derived local cache file does not exist, the request is
sent with no conditional validators even if an ETag/Last-Modified pair is
stored for the URL — the fetch behaves exactly as if nothing were stored,
and a plain full response is accepted as a fresh download
(`changed = true`). -/
theorem c10_no_validators_without_local_file (st : DlState) (h : st.destExists = false) :
    requestHeaders st = { ifNoneMatch := none, ifModifiedSince := none } ∧
    (∀ server : Request → Response,
        download_file st server =
          download_file
            { etagStored := none, lastModifiedStored := none, destExists := false }
            server) ∧
    (∀ server : Request → Response, ∀ etag lastModified : Option String, ∀ n : Nat,
        server { ifNoneMatch := none, ifModifiedSince := none } =
          .success etag lastModified n n →
        download_file st server =
          .ok (true, { etagStored := etag, lastModifiedStored := lastModified,
                       destExists := true })) := by
  have hreq : requestHeaders st = { ifNoneMatch := none, ifModifiedSince := none } := by
    unfold requestHeaders
    rw [h]
    simp
  refine ⟨hreq, ?_, ?_⟩
  · intro server
    unfold download_file
    rw [hreq, h]
    rfl
  · intro server etag lastModified n hsrv
    unfold download_file
    rw [hreq, hsrv]
    simp

/-- Witness for C10: stored validators for a missing file are not sent,
and a full 10-byte response is taken as a fresh download. -/
theorem c10_no_validators_without_local_file_witness :
    requestHeaders
        { etagStored := some "etag-on-file", lastModifiedStored := some "yesterday",
          destExists := false } =
      { ifNoneMatch := none, ifModifiedSince := none } ∧
    download_file
        { etagStored := some "etag-on-file", lastModifiedStored := some "yesterday",
          destExists := false }
        (fun _ => .success (some "e2") none 10 10) =
      .ok (true, { etagStored := some "e2", lastModifiedStored := none,
                   destExists := true }) :=
  ⟨(c10_no_validators_without_local_file
      { etagStored := some "etag-on-file", lastModifiedStored := some "yesterday",
        destExists := false } rfl).1,
   (c10_no_validators_without_local_file
      { etagStored := some "etag-on-file", lastModifiedStored := some "yesterday",
        destExists := false } rfl).2.2 (fun _ => .success (some "e2") none 10 10)
      (some "e2") none 10 rfl⟩

end Mongodl

namespace Mongodl

/-- C9: in the published-version resolution, a lookup miss is fatal with
exactly one exception. A resolution error for any component other than
`crypt_shared` propagates; a miss for `crypt_shared` already at
`latest-release` propagates; a non-`ValueError` failure (a missing JSON
field) propagates even for `crypt_shared`; a `crypt_shared` lookup miss at
any other version produces exactly one fallback resolution at
`latest-release` with target `osx` rewritten to `macos` (whose own failure
propagates), marked as warned; and a successful lookup never falls back
nor warns. The sample catalog exercises the fallback concretely. -/
theorem c9_lookup_miss_fatal_except_crypt_shared (catalog : Catalog)
    (version target arch edition : String) :
    (∀ component : String, ∀ e : ResolveError, component ≠ "crypt_shared" →
        _published_build_url catalog version target arch edition component = .error e →
        resolve_published catalog version target arch edition component = .error e) ∧
    (∀ e : ResolveError,
        _published_build_url catalog "latest-release" target arch edition "crypt_shared" =
          .error e →
        resolve_published catalog "latest-release" target arch edition "crypt_shared" =
          .error e) ∧
    (∀ e : ResolveError, e.isValueError = false →
        _published_build_url catalog version target arch edition "crypt_shared" = .error e →
        resolve_published catalog version target arch edition "crypt_shared" = .error e) ∧
    (version ≠ "latest-release" →
        catalog version target arch edition "crypt_shared" = none →
        resolve_published catalog version target arch edition "crypt_shared" =
          (match _published_build_url catalog "latest-release"
              (if target == "osx" then "macos" else target) arch edition "crypt_shared" with
           | .ok (url, sha) => .ok (url, sha, true)
           | .error e2 => .error e2)) ∧
    (∀ component url sha : String,
        _published_build_url catalog version target arch edition component = .ok (url, sha) →
        resolve_published catalog version target arch edition component =
          .ok (url, sha, false)) ∧
    resolve_published sampleCatalog "7.0.0" "osx" "x86_64" "enterprise" "crypt_shared" =
      .ok ("https://example.test/crypt.tgz", "cafebabe", true) := by
  refine ⟨?_, ?_, ?_, ?_, ?_, by rfl⟩
  · intro component e hcomp herr
    unfold resolve_published
    rw [herr]
    dsimp only
    rw [if_neg (by simp [hcomp])]
  · intro e herr
    unfold resolve_published
    rw [herr]
    dsimp only
    rw [if_neg (by simp)]
  · intro e hval herr
    unfold resolve_published
    rw [herr]
    dsimp only
    rw [if_neg (by simp [hval])]
  · intro hver hcat
    have herr : _published_build_url catalog version target arch edition "crypt_shared" =
        .error (.valueErrorNoDownload version target arch edition "crypt_shared") := by
      unfold _published_build_url
      dsimp only
      rw [if_neg (by decide)] at *
      rw [hcat]
    unfold resolve_published
    rw [herr]
    dsimp only
    rw [if_pos (by simp [ResolveError.isValueError, hver])]
  · intro component url sha hok
    unfold resolve_published
    rw [hok]

/-- Witness for C9: the sample catalog misses `crypt_shared` at `"7.0.0"`,
and the fallback result equals the `latest-release`/`macos` resolution
marked as warned. -/
theorem c9_lookup_miss_fatal_except_crypt_shared_witness :
    resolve_published sampleCatalog "7.0.0" "osx" "x86_64" "enterprise" "crypt_shared" =
      (match _published_build_url sampleCatalog "latest-release"
          (if "osx" == "osx" then "macos" else "osx") "x86_64" "enterprise" "crypt_shared" with
       | .ok (url, sha) => .ok (url, sha, true)
       | .error e2 => .error e2) :=
  (c9_lookup_miss_fatal_except_crypt_shared sampleCatalog "7.0.0" "osx" "x86_64"
    "enterprise").2.2.2.1 (by decide) rfl

end Mongodl
